import Mathlib

/-!
Verification of the Bitcoin Cash script-evaluation engine of `bitcoin-ts`.

Shallow embedding of:
- `src/lib/auth/instruction-sets/bitcoin-cash/bitcoin-cash.ts` (instruction
  set glue, phase pipeline, final-validity predicate),
- `src/lib/auth/instruction-sets/common/push.ts` (push operators),
- `src/lib/auth/instruction-sets/common/crypto.ts` (OP_HASH160, OP_CHECKSIG,
  OP_CHECKMULTISIG).

Bytes are `Nat` (values 0..255), byte arrays are `List Nat`, the stack is a
`List` of byte arrays indexed like a JavaScript array (element 0 is the
bottom, `push`/`pop` act on the end).  The repository's `virtual-machine.ts`,
`common/common.ts`, `common/encoding.ts` and
`common/signing-serialization.ts` are not part of the sources; the
definitions below that replace them carry doc comments beginning
`Modelled from the spec:`.
-/

namespace BitcoinTs

/-- Closed error taxonomy: `CommonAuthenticationError` together with the
variant-specific `BitcoinCashAuthenticationError.exceededMaximumOperationCount`
(spec section 7). -/
inductive AuthenticationError where
  | emptyStack
  | invalidScriptNumber
  | invalidPublicKeyEncoding
  | invalidSignatureEncoding
  | invalidNaturalNumber
  | malformedPush
  | nonMinimalPush
  | exceedsMaximumPush
  | insufficientPublicKeys
  | exceedsMaximumMultisigPublicKeyCount
  | invalidProtocolBugValue
  | exceededMaximumOperationCount
  | unknownOpcode
  | disabledOpcode
  | p2shPushOnly
  | p2shEmptyStack
  | unbalancedConditional
  | verifyFailed
deriving DecidableEq, Repr

/-- External (immutable) program state: the transaction context fields of
`CommonProgramExternalState` (spec section 3). -/
structure ExternalState where
  version : Nat
  transactionOutpointsHash : List Nat
  transactionSequenceNumbersHash : List Nat
  outpointTransactionHash : List Nat
  correspondingOutputHash : List Nat
  transactionOutputsHash : List Nat
  outpointIndex : Nat
  outpointValue : Nat
  sequenceNumber : Nat
  locktime : Nat
  blockHeight : Nat
  blockTime : Nat
deriving DecidableEq, Repr

/-- `BitcoinCashAuthenticationProgramState`: external context plus the
internal fields mutated by operators. -/
structure ProgramState where
  ext : ExternalState
  script : List Nat
  ip : Int
  lastCodeSeparator : Int
  operationCount : Nat
  operations : List Nat
  stack : List (List Nat)
  error : Option AuthenticationError
deriving DecidableEq, Repr

/-- An `AuthenticationProgram`: the two scripts plus the external state that
is spread into each phase's initial program state. -/
structure AuthenticationProgram where
  unlockingScript : List Nat
  lockingScript : List Nat
  state : ExternalState
deriving DecidableEq, Repr

/-- Modelled from the spec: `applyError` of the missing `common/common.ts`
returns the state with `error` set and every other field intact
(spec section 4.7). -/
def applyError (e : AuthenticationError) (s : ProgramState) : ProgramState :=
  { s with error := some e }

/-- Read `script[i]` with JavaScript indexing: out-of-range or negative
indices give `undefined` (`none`). -/
def getByte (script : List Nat) (i : Int) : Option Nat :=
  if i < 0 then none else script.get? i.toNat

/-- Clamp a JavaScript `slice`/`subarray` index: negative indices count from
the end, and the result is clamped into `[0, len]`. -/
def jsIndex (len : Nat) (i : Int) : Nat :=
  if i < 0 then (max ((len : Int) + i) 0).toNat else min i.toNat len

/-- JavaScript `array.slice(b, e)` on byte arrays. -/
def jsSlice (l : List Nat) (b e : Int) : List Nat :=
  let b' := jsIndex l.length b
  let e' := jsIndex l.length e
  (l.take e').drop b'

/-- JavaScript `array.subarray(b)` / `array.slice(b)` (to the end). -/
def jsSliceFrom (l : List Nat) (b : Int) : List Nat :=
  l.drop (jsIndex l.length b)

/-- JavaScript `array.pop()`: returns the last element (or `undefined`) and
the array without it. -/
def jsPop (l : List (List Nat)) : Option (List Nat) × List (List Nat) :=
  (l.getLast?, l.dropLast)

/-- JavaScript `array.splice(-k)`: for `k > 0` this removes the last `k`
elements (all of them when `k > length`); for `k = 0`, `-0` is `0`, so the
call removes every element of the array.  Returns
(remaining array, removed elements). -/
def jsSpliceNeg (k : Nat) (l : List (List Nat)) : List (List Nat) × List (List Nat) :=
  if k = 0 then ([], l) else (l.take (l.length - k), l.drop (l.length - k))

/-- Little-endian digits (base 256) of a natural number, with an explicit
recursion bound; `fuel = 16` covers every value below `2 ^ 128`. -/
def natLEAux : Nat → Nat → List Nat
  | 0, _ => []
  | fuel + 1, m => if m = 0 then [] else m % 256 :: natLEAux fuel (m / 256)

/-- Minimal little-endian base-256 digits of a natural number. -/
def natLE (m : Nat) : List Nat := natLEAux 16 m

/-- Fixed-width little-endian encoding (`width` bytes) of a natural number. -/
def numToLE : Nat → Nat → List Nat
  | 0, _ => []
  | width + 1, m => m % 256 :: numToLE width (m / 256)

/-- Value of a little-endian byte list. -/
def leToNat (b : List Nat) : Nat :=
  b.foldr (fun x acc => acc * 256 + x) 0

/-- Modelled from the spec: `bigIntToScriptNumber` of the missing
`common/common.ts` encodes a signed integer as a minimal little-endian
script number with the sign bit in the last byte (spec section 3). -/
def bigIntToScriptNumber (v : Int) : List Nat :=
  if v = 0 then []
  else
    let bytes := natLE v.natAbs
    let last := bytes.getLastD 0
    if 0x80 ≤ last then bytes ++ [if v < 0 then 0x80 else 0x00]
    else if v < 0 then bytes.dropLast ++ [last + 0x80]
    else bytes

/-- Modelled from the spec: `parseBytesAsScriptNumber` of the missing
`common/common.ts` decodes a minimal little-endian script number of at most
9 bytes; `none` stands for the `ScriptNumberError` returned on non-minimal
or oversized encodings (spec section 3). -/
def parseBytesAsScriptNumber (b : List Nat) : Option Int :=
  if b = [] then some 0
  else if 9 < b.length then none
  else
    let last := b.getLastD 0
    if (last = 0 ∨ last = 0x80) ∧
        (b.length = 1 ∨ b.getD (b.length - 2) 0 < 0x80) then none
    else
      let mag := leToNat b.dropLast + (last % 0x80) * 256 ^ (b.length - 1)
      if 0x80 ≤ last then some (-(mag : Int)) else some (mag : Int)

/-- Modelled from the spec: `booleanToScriptNumber` pushes the canonical
script numbers `0x01` (true) and the empty element (false)
(spec section 4.1). -/
def booleanToScriptNumber (b : Bool) : List Nat :=
  bigIntToScriptNumber (if b then 1 else 0)

/-- Modelled from the spec: `stackElementIsTruthy` of the missing
`common/common.ts`.  An element is falsy iff it is empty or consists of one
or more `0x00` bytes optionally terminated by a single `0x80`
(spec section 4.6). -/
def stackElementIsTruthy (e : List Nat) : Bool :=
  ¬(e = [] ∨ e.all (fun b => b = 0) ∨
    (2 ≤ e.length ∧ e.dropLast.all (fun b => b = 0) ∧ e.getLastD 0 = 0x80))

/-- Modelled from the spec: the external cryptographic collaborators of
section 6 (`Sha256`, `Ripemd160`, `Secp256k1`) together with the encoding
predicates of the missing `common/encoding.ts` (spec section 4.2), injected
at construction time. -/
structure CryptoEnv where
  sha256 : List Nat → List Nat
  ripemd160 : List Nat → List Nat
  verifySignatureDERLowS : List Nat → List Nat → List Nat → Bool
  isValidPublicKeyEncoding : List Nat → Bool
  isValidSignatureEncoding : List Nat → Bool

/-- Modelled from the spec: `decodeBitcoinSignature` of the missing
`common/encoding.ts` splits a Bitcoin-encoded signature into the DER
signature and the trailing one-byte hash type (spec section 4.2). -/
def decodeBitcoinSignature (b : List Nat) : List Nat × Nat :=
  (b.dropLast, b.getLastD 0)

/-- Modelled from the spec: `bigIntToBitcoinVarInt` of the missing utils
module encodes a length as a Bitcoin varint. -/
def bigIntToBitcoinVarInt (n : Nat) : List Nat :=
  if n < 0xfd then [n]
  else if n ≤ 0xffff then 0xfd :: numToLE 2 n
  else if n ≤ 0xffffffff then 0xfe :: numToLE 4 n
  else 0xff :: numToLE 8 n

/-- Modelled from the spec: `generateBitcoinCashSigningSerialization` of the
missing `common/signing-serialization.ts`, the BIP-143-style preimage of
spec section 4.3. -/
def generateBitcoinCashSigningSerialization (ext : ExternalState)
    (scriptCode : List Nat) (t : Nat) : List Nat :=
  let anyoneCanPay := t.land 0x80 ≠ 0
  let base := t.land 0x1f
  let zero32 := List.replicate 32 0
  let hashPrevouts := if anyoneCanPay then zero32 else ext.transactionOutpointsHash
  let hashSequence :=
    if anyoneCanPay ∨ base ≠ 0x01 then zero32
    else ext.transactionSequenceNumbersHash
  let hashOutputs :=
    if base = 0x01 then ext.transactionOutputsHash
    else if base = 0x03 then ext.correspondingOutputHash
    else zero32
  numToLE 4 ext.version ++ hashPrevouts ++ hashSequence ++
    ext.outpointTransactionHash ++ numToLE 4 ext.outpointIndex ++ scriptCode ++
    numToLE 8 ext.outpointValue ++ numToLE 4 ext.sequenceNumber ++
    hashOutputs ++ numToLE 4 ext.locktime ++ numToLE 4 t

/-- `CommonConsensus.maximumOperationCount` (201). -/
def maximumOperationCount : Nat := 201

/-- `opPushNumber` (push.ts): push the canonical script-number encoding of
the value. -/
def opPushNumber (value : Int) (s : ProgramState) : ProgramState :=
  { s with stack := s.stack ++ [bigIntToScriptNumber value] }

/-- `opPushDataConstant` (push.ts), the operation of `OP_PUSHBYTES_N`.  It
reads `value` bytes starting at `state.ip` (`pushStart = state.ip`,
`pushEnd = state.ip + value`): if `script.length < pushEnd` it fails with
`malformedPush`, otherwise it pushes `script.slice(pushStart, pushEnd)` and
sets `ip := pushEnd`. -/
def opPushDataConstant (value : Nat) (s : ProgramState) : ProgramState :=
  let pushStart := s.ip
  let pushEnd := s.ip + (value : Int)
  if (s.script.length : Int) < pushEnd then applyError .malformedPush s
  else
    { s with stack := s.stack ++ [jsSlice s.script pushStart pushEnd],
             ip := pushEnd }

/-- `createPushDataOperator` (push.ts): the operation shared by
`OP_PUSHDATA1/2/4`.  It reads a `lengthBits`-byte little-endian length at
`state.ip`, then the payload; truncation fails `malformedPush`, a length
below `minimum` fails `nonMinimalPush`, a length above `maximum` fails
`exceedsMaximumPush`; otherwise the payload is pushed and
`ip := pushBegin + length`. -/
def createPushDataOperator (lengthBits minimum maximum : Nat)
    (s : ProgramState) : ProgramState :=
  let pushBegin := s.ip + (lengthBits : Int)
  if (s.script.length : Int) < pushBegin then applyError .malformedPush s
  else
    let length := leToNat (jsSlice s.script s.ip pushBegin)
    if (s.script.length : Int) < pushBegin + (length : Int) then
      applyError .malformedPush s
    else if length < minimum then applyError .nonMinimalPush s
    else if maximum < length then applyError .exceedsMaximumPush s
    else
      let pushEnd := pushBegin + (length : Int)
      { s with stack := s.stack ++ [jsSlice s.script pushBegin pushEnd],
               ip := pushEnd }

/-- `opPushData1` (push.ts): one length byte, minimum length 75
(`maximumPushDataConstant`), maximum 520. -/
def opPushData1 : ProgramState → ProgramState :=
  createPushDataOperator 1 75 520

/-- `opPushData2` (push.ts): two length bytes, minimum length 256, maximum
520. -/
def opPushData2 : ProgramState → ProgramState :=
  createPushDataOperator 2 256 520

/-- `opPushData4` (push.ts): four length bytes, minimum length 65536,
maximum 520, so it always produces an error. -/
def opPushData4 : ProgramState → ProgramState :=
  createPushDataOperator 4 65536 520

/-- Modelled from the spec: `opEqual` of the missing `common/bitwise.ts`.
Byte-wise comparison of the two popped elements, elements of different
length unequal, boolean result pushed via `booleanToScriptNumber`, underflow
fails `emptyStack` (spec section 4.1 and the `OP_EQUAL` unit tests). -/
def opEqual (s : ProgramState) : ProgramState :=
  let p1 := jsPop s.stack
  let p2 := jsPop p1.2
  let s1 := { s with stack := p2.2 }
  match p1.1, p2.1 with
  | some a, some b =>
      { s1 with stack := s1.stack ++ [booleanToScriptNumber (a == b)] }
  | _, _ => applyError .emptyStack s1

/-- `opHash160` (crypto.ts): pop one element, push
`ripemd160(sha256(element))`; `emptyStack` when absent. -/
def opHash160 (env : CryptoEnv) (s : ProgramState) : ProgramState :=
  let p := jsPop s.stack
  let s1 := { s with stack := p.2 }
  match p.1 with
  | none => applyError .emptyStack s1
  | some element =>
      { s1 with stack := s1.stack ++ [env.ripemd160 (env.sha256 element)] }

/-- `opCheckSig` (crypto.ts): pop the public key and the Bitcoin-encoded
signature, validate their encodings, build the signing serialization from
the script after `lastCodeSeparator + 1`, double-SHA256 it and push the
boolean verification result. -/
def opCheckSig (env : CryptoEnv) (s : ProgramState) : ProgramState :=
  let p1 := jsPop s.stack
  let p2 := jsPop p1.2
  let s1 := { s with stack := p2.2 }
  match p1.1, p2.1 with
  | some publicKey, some bitcoinEncodedSignature =>
      if ¬ env.isValidPublicKeyEncoding publicKey then
        applyError .invalidPublicKeyEncoding s1
      else if ¬ env.isValidSignatureEncoding bitcoinEncodedSignature then
        applyError .invalidSignatureEncoding s1
      else
        let script := jsSliceFrom s1.script (s1.lastCodeSeparator + 1)
        let scriptCode := bigIntToBitcoinVarInt script.length ++ script
        let d := decodeBitcoinSignature bitcoinEncodedSignature
        let serialization :=
          generateBitcoinCashSigningSerialization s1.ext scriptCode d.2
        let digest := env.sha256 (env.sha256 serialization)
        { s1 with stack := s1.stack ++
            [booleanToScriptNumber (env.verifySignatureDERLowS d.1 publicKey digest)] }
  | _, _ => applyError .emptyStack s1

/-- The signature-checking walk of `opCheckMultiSig` (crypto.ts).  The
source's while loop runs with counters `approvingPublicKeys`,
`remainingSignatures`, `remainingPublicKeys`; every iteration decrements
`remainingPublicKeys` by exactly one, so the recursion here is structural on
that counter.  The loop continues while `remainingSignatures > 0`,
`remainingPublicKeys ≥ approvingPublicKeys + remainingSignatures` and
`approvingPublicKeys ≠ requiredApprovingPublicKeys`; each iteration checks
`publicKeys[remainingPublicKeys - 1]` against
`signatures[remainingSignatures - 1]`, a successful verification consuming
both, a failure only the key.  Returns the final counter triple, or the
encoding error that aborted the script. -/
def msLoop (env : CryptoEnv) (ext : ExternalState) (scriptCode : List Nat)
    (publicKeys signatures : List (List Nat)) (required : Int)
    (approving remSigs : Nat) :
    Nat → Except AuthenticationError (Nat × Nat × Nat)
  | 0 => .ok (approving, remSigs, 0)
  | remKeys + 1 =>
    if 0 < remSigs ∧ approving + remSigs ≤ remKeys + 1 ∧
        (approving : Int) ≠ required then
      let publicKey := publicKeys.getD remKeys []
      let bitcoinEncodedSignature := signatures.getD (remSigs - 1) []
      if ¬ env.isValidPublicKeyEncoding publicKey then
        .error .invalidPublicKeyEncoding
      else if ¬ env.isValidSignatureEncoding bitcoinEncodedSignature then
        .error .invalidSignatureEncoding
      else
        let d := decodeBitcoinSignature bitcoinEncodedSignature
        let serialization :=
          generateBitcoinCashSigningSerialization ext scriptCode d.2
        let digest := env.sha256 (env.sha256 serialization)
        let signed := env.verifySignatureDERLowS d.1 publicKey digest
        if signed then
          msLoop env ext scriptCode publicKeys signatures required
            (approving + 1) (remSigs - 1) remKeys
        else
          msLoop env ext scriptCode publicKeys signatures required
            approving remSigs remKeys
    else .ok (approving, remSigs, remKeys + 1)

/-- `opCheckMultiSig` (crypto.ts).  Pops the key count `n` (script number,
`0 ≤ n ≤ 20`), removes the keys with `stack.splice(-n)` (for `n = 0` the
JavaScript call `splice(-0)` is `splice(0)` and removes the whole stack),
adds `n` to `operationCount` with the 201 guard, pops the signature count
`m` (`0 ≤ m ≤ n`), removes the signatures with `splice(-m)`, pops the
protocol-bug element (which must be empty), and runs the signature-checking
walk, pushing the boolean outcome. -/
def opCheckMultiSig (env : CryptoEnv) (s : ProgramState) : ProgramState :=
  let p1 := jsPop s.stack
  let s1 := { s with stack := p1.2 }
  match p1.1 with
  | none => applyError .emptyStack s1
  | some potentialPublicKeysBytes =>
    match parseBytesAsScriptNumber potentialPublicKeysBytes with
    | none => applyError .invalidNaturalNumber s1
    | some potentialPublicKeysParsed =>
      if potentialPublicKeysParsed < 0 then applyError .invalidNaturalNumber s1
      else if 20 < potentialPublicKeysParsed then
        applyError .exceedsMaximumMultisigPublicKeyCount s1
      else
        let potentialPublicKeys := potentialPublicKeysParsed.toNat
        let sp := jsSpliceNeg potentialPublicKeys s1.stack
        let publicKeys := sp.2
        let s2 := { s1 with
          stack := sp.1
          operationCount := s1.operationCount + potentialPublicKeys }
        if maximumOperationCount < s2.operationCount then
          applyError .exceededMaximumOperationCount s2
        else
          let p3 := jsPop s2.stack
          let s3 := { s2 with stack := p3.2 }
          match p3.1 with
          | none => applyError .emptyStack s3
          | some requiredBytes =>
            match parseBytesAsScriptNumber requiredBytes with
            | none => applyError .invalidNaturalNumber s3
            | some requiredApprovingPublicKeys =>
              if requiredApprovingPublicKeys < 0 then
                applyError .invalidNaturalNumber s3
              else if potentialPublicKeysParsed < requiredApprovingPublicKeys then
                applyError .insufficientPublicKeys s3
              else
                let sp2 := jsSpliceNeg requiredApprovingPublicKeys.toNat s3.stack
                let signatures := sp2.2
                let s4 := { s3 with stack := sp2.1 }
                let p5 := jsPop s4.stack
                let s5 := { s4 with stack := p5.2 }
                match p5.1 with
                | none => applyError .emptyStack s5
                | some protocolBugValue =>
                  if protocolBugValue.length ≠ 0 then
                    applyError .invalidProtocolBugValue s5
                  else
                    let script := jsSliceFrom s5.script (s5.lastCodeSeparator + 1)
                    let scriptCode := bigIntToBitcoinVarInt script.length ++ script
                    match msLoop env s5.ext scriptCode publicKeys signatures
                        requiredApprovingPublicKeys 0 signatures.length
                        publicKeys.length with
                    | .error e => applyError e s5
                    | .ok r =>
                      { s5 with stack := s5.stack ++
                          [booleanToScriptNumber
                            ((r.1 : Int) == requiredApprovingPublicKeys)] }

/-- The operator table: push-number operators (`OP_1NEGATE` 0x4f, `OP_0`
0x00, `OP_1..OP_16` 0x51..0x60), constant pushes (`OP_PUSHBYTES_1..75`
0x01..0x4b with `value` equal to the opcode byte), `OP_PUSHDATA1/2/4`
(0x4c..0x4e), and the crypto operators (`OP_HASH160` 0xa9, `OP_CHECKSIG`
0xac, `OP_CHECKMULTISIG` 0xae).  `OP_EQUAL` (0x87) is the spec-modelled
operator above; every other opcode is absent from the table. -/
def operatorTable (env : CryptoEnv) (c : Nat) :
    Option (ProgramState → ProgramState) :=
  if c = 0x00 then some (opPushNumber 0)
  else if c ≤ 0x4b then some (opPushDataConstant c)
  else if c = 0x4c then some opPushData1
  else if c = 0x4d then some opPushData2
  else if c = 0x4e then some opPushData4
  else if c = 0x4f then some (opPushNumber (-1))
  else if 0x51 ≤ c ∧ c ≤ 0x60 then some (opPushNumber ((c : Int) - 0x50))
  else if c = 0x87 then some opEqual
  else if c = 0xa9 then some (opHash160 env)
  else if c = 0xac then some (opCheckSig env)
  else if c = 0xae then some (opCheckMultiSig env)
  else none

/-- The `before` hook of `bitcoinCashInstructionSet` (bitcoin-cash.ts):
increment `ip`; if the byte at the new `ip` exists, increment
`operationCount`, fail with `exceededMaximumOperationCount` when the count
exceeds 201, and otherwise append that byte to `operations`. -/
def before (s : ProgramState) : ProgramState :=
  let s := { s with ip := s.ip + 1 }
  match getByte s.script s.ip with
  | some operation =>
      let s := { s with operationCount := s.operationCount + 1 }
      if maximumOperationCount < s.operationCount then
        applyError .exceededMaximumOperationCount s
      else { s with operations := s.operations ++ [operation] }
  | none => s

/-- The `continue` predicate of `bitcoinCashInstructionSet`
(bitcoin-cash.ts): `error === undefined && ip < script.length`. -/
def continueP (s : ProgramState) : Bool :=
  s.error = none ∧ s.ip < (s.script.length : Int)

/-- Modelled from the spec: one step of the virtual machine
(`virtual-machine.ts` is not part of the sources; spec section 4.5).  The
step dispatches the opcode at the current instruction pointer into the
operator table (an absent opcode fails `unknownOpcode`), and the chosen
operation is applied to the state returned by the `before` hook.  The
dispatch must read the opcode at the pre-`before` instruction pointer: this
is the only reading under which the source's `continue` predicate
(`ip < script.length`), the source's initial `ip = 0`, and the source's push
operators (which read their payload starting at `state.ip`) together
execute a script's opcodes in order and halt cleanly after its last one. -/
def vmStep (env : CryptoEnv) (s : ProgramState) : ProgramState :=
  let operation :=
    match getByte s.script s.ip with
    | some c =>
      match operatorTable env c with
      | some f => f
      | none => applyError .unknownOpcode
    | none => applyError .unknownOpcode
  operation (before s)

/-- Modelled from the spec: the evaluation loop of section 4.5
(`while continue(state), state := step(state)`), with an explicit step
budget.  Since every step advances `ip` by at least one and the loop only
runs while `ip < script.length`, a budget of `script.length + 1` steps is
never exhausted (spec section 8, termination law). -/
def evalLoop (env : CryptoEnv) : Nat → ProgramState → ProgramState
  | 0, s => s
  | fuel + 1, s => if continueP s then evalLoop env fuel (vmStep env s) else s

/-- Modelled from the spec: `vm.evaluate` (spec section 4.5). -/
def vmEvaluate (env : CryptoEnv) (s : ProgramState) : ProgramState :=
  evalLoop env (s.script.length + 1) s

/-- A `DebuggingStep` of `virtual-machine.ts`: the rendered mnemonic and
description together with the snapshot of the state.  The `asm` and
`description` renderers of the operators are debugger-only strings and are
not reproduced here; VM-generated entries carry empty strings. -/
structure DebuggingStep where
  asm : String
  description : String
  state : ProgramState
deriving DecidableEq, Repr

/-- Modelled from the spec: the snapshot sequence of `vm.debug` after the
initial entry — one snapshot of the post-step state per executed step
(spec section 4.5). -/
def debugLoop (env : CryptoEnv) : Nat → ProgramState → List DebuggingStep
  | 0, _ => []
  | fuel + 1, s =>
    if continueP s then
      let s1 := vmStep env s
      ⟨"", "", s1⟩ :: debugLoop env fuel s1
    else []

/-- Modelled from the spec: `vm.debug` (spec section 4.5): an initial entry
carrying the phase label precedes the per-step snapshots, and the last
entry's state is the terminal state. -/
def vmDebug (env : CryptoEnv) (s : ProgramState) (label : String) :
    List DebuggingStep :=
  ⟨label, label, s⟩ :: debugLoop env (s.script.length + 1) s

/-- `isPayToScriptHash` (bitcoin-cash.ts): length 23, byte 0 `OP_HASH160`
(0xa9), byte 1 `OP_PUSHBYTES_20` (0x14), byte 22 `OP_EQUAL` (0x87). -/
def isPayToScriptHash (lockingScript : List Nat) : Bool :=
  lockingScript.length = 23 ∧ lockingScript.getD 0 0 = 0xa9 ∧
    lockingScript.getD 1 0 = 0x14 ∧ lockingScript.getD 22 0 = 0x87

/-- `isPushOnly` (bitcoin-cash.ts): every recorded operation value is below
`OP_16` (0x60). -/
def isPushOnly (operations : List Nat) : Bool :=
  operations.all (fun value => value < 0x60)

/-- `createBitcoinCashProgramState` (bitcoin-cash.ts): the initial state of
a phase — note `ip` is initialized to 0, `lastCodeSeparator` to −1, and the
program's external state is spread in. -/
def createBitcoinCashProgramState (program : AuthenticationProgram)
    (script : List Nat) (stack : List (List Nat)) : ProgramState :=
  { ext := program.state
    script := script
    ip := 0
    lastCodeSeparator := -1
    operationCount := 0
    operations := []
    stack := stack
    error := none }

/-- The phase labels of bitcoin-cash.ts. -/
def phaseUnlocking : String := "Begin unlocking script evaluation."

/-- The locking phase label of bitcoin-cash.ts. -/
def phaseLocking : String := "Begin locking script evaluation."

/-- The P2SH phase label of bitcoin-cash.ts. -/
def phaseP2sh : String := "Begin Pay-to-Script-Hash (P2SH) script evaluation."

/-- The `P2shError.asm` marker of bitcoin-cash.ts. -/
def p2shErrorAsm : String := "[P2SH error]"

/-- The `P2shError.pushOnly` description of bitcoin-cash.ts. -/
def p2shErrorPushOnly : String := "P2SH error: unlockingScript must be push-only."

/-- The `P2shError.emptyStack` description of bitcoin-cash.ts. -/
def p2shErrorEmptyStack : String :=
  "P2SH error: unlockingScript must not leave an empty stack."

/-- The state of the last entry of a debugging-step list
(`steps[steps.length - 1].state` in bitcoin-cash.ts), with a default for the
impossible empty case. -/
def lastStateOf (steps : List DebuggingStep) (d : ProgramState) : ProgramState :=
  match steps.getLast? with
  | some step => step.state
  | none => d

/-- `debugPhase` (bitcoin-cash.ts): build the phase's initial state, debug
it, and pair the step list with the last entry's state. -/
def debugPhase (env : CryptoEnv) (program : AuthenticationProgram)
    (script : List Nat) (message : String) (stack : List (List Nat)) :
    List DebuggingStep × ProgramState :=
  let state := createBitcoinCashProgramState program script stack
  let steps := vmDebug env state message
  (steps, lastStateOf steps state)

/-- `evaluateP2sh` (bitcoin-cash.ts): clone the unlocking stack, pop its
topmost element as the redeem script, and evaluate it with the remaining
stack.  On an empty stack the JavaScript `pop()` yields `undefined`, whose
use as a script crashes the evaluation; that case is `none`. -/
def evaluateP2sh {T : Type} (unlockingStack : List (List Nat))
    (evaluate : List Nat → List (List Nat) → T) : Option T :=
  match jsPop unlockingStack with
  | (some p2shScript, p2shStack) => some (evaluate p2shScript p2shStack)
  | (none, _) => none

/-- `debugBitcoinCashAuthenticationProgram` (bitcoin-cash.ts): the debug
pipeline.  Unlocking phase first (returning its steps alone on error), then
the locking phase; on the P2SH shape, a failed push-only or non-empty-stack
prerequisite appends a pseudo-step carrying the locking result, and
otherwise the redeem script is debugged as a third phase. -/
def debugBitcoinCashAuthenticationProgram (env : CryptoEnv)
    (program : AuthenticationProgram) : List DebuggingStep :=
  let unlocking := debugPhase env program program.unlockingScript phaseUnlocking []
  let unlockingSteps := unlocking.1
  let unlockingResult := unlocking.2
  if unlockingResult.error ≠ none then unlockingSteps
  else
    let locking := debugPhase env program program.lockingScript phaseLocking
      unlockingResult.stack
    let lockingSteps := locking.1
    let lockingResult := locking.2
    if lockingResult.error ≠ none ∨ ¬ isPayToScriptHash program.lockingScript then
      unlockingSteps ++ lockingSteps
    else if ¬ isPushOnly unlockingResult.operations then
      unlockingSteps ++ lockingSteps ++
        [⟨p2shErrorAsm, p2shErrorPushOnly, lockingResult⟩]
    else if unlockingResult.stack.length = 0 then
      unlockingSteps ++ lockingSteps ++
        [⟨p2shErrorAsm, p2shErrorEmptyStack, lockingResult⟩]
    else
      match evaluateP2sh unlockingResult.stack
          (fun scr stk => debugPhase env program scr phaseP2sh stk) with
      | some p2sh => unlockingSteps ++ lockingSteps ++ p2sh.1
      | none => unlockingSteps ++ lockingSteps

/-- `validateBitcoinCashAuthenticationProgramState` (bitcoin-cash.ts),
translated faithfully: the source tests `state.error !== undefined` (not
`===`), together with a one-element stack whose element is truthy. -/
def validateBitcoinCashAuthenticationProgramState (s : ProgramState) : Bool :=
  s.error ≠ none ∧ s.stack.length = 1 ∧ stackElementIsTruthy (s.stack.getD 0 [])

/-- The final-validity predicate as the spec states it (section 4.6): no
error, exactly one stack element, and that element truthy. -/
def validProgramStateSpec (s : ProgramState) : Bool :=
  s.error = none ∧ s.stack.length = 1 ∧ stackElementIsTruthy (s.stack.getD 0 [])

/-- `evaluateBitcoinCashAuthenticationProgram` (bitcoin-cash.ts): evaluate
the unlocking script on an empty stack (returning its result on error),
evaluate the locking script on the unlocking result's stack, and return the
locking result — unless the locking script has the P2SH shape, in which case
the redeem script popped from the unlocking result's stack is evaluated
instead (with no push-only or empty-stack check; an empty unlocking stack
makes the JavaScript source crash, here `none`). -/
def evaluateBitcoinCashAuthenticationProgram (env : CryptoEnv)
    (program : AuthenticationProgram) : Option ProgramState :=
  let unlockingResult := vmEvaluate env
    (createBitcoinCashProgramState program program.unlockingScript [])
  if unlockingResult.error ≠ none then some unlockingResult
  else
    let lockingResult := vmEvaluate env
      (createBitcoinCashProgramState program program.lockingScript
        unlockingResult.stack)
    if isPayToScriptHash program.lockingScript then
      evaluateP2sh unlockingResult.stack fun scr stk =>
        vmEvaluate env (createBitcoinCashProgramState program scr stk)
    else some lockingResult

/-- Run exactly `n` VM steps, provided `continue` holds before each of them;
`none` when the budget meets a state that no longer continues. -/
def runWhile (env : CryptoEnv) : Nat → ProgramState → Option ProgramState
  | 0, s => some s
  | n + 1, s => if continueP s then runWhile env n (vmStep env s) else none

/-- The states an evaluation can pass through: the reflexive closure of the
VM step taken only while `continue` holds. -/
inductive Reachable (env : CryptoEnv) (s₀ : ProgramState) : ProgramState → Prop
  | refl : Reachable env s₀ s₀
  | step : ∀ s, Reachable env s₀ s → continueP s = true →
      Reachable env s₀ (vmStep env s)

/-- A concrete external state (all context fields zero). -/
def ext0 : ExternalState :=
  { version := 0
    transactionOutpointsHash := List.replicate 32 0
    transactionSequenceNumbersHash := List.replicate 32 0
    outpointTransactionHash := List.replicate 32 0
    correspondingOutputHash := List.replicate 32 0
    transactionOutputsHash := List.replicate 32 0
    outpointIndex := 0
    outpointValue := 0
    sequenceNumber := 0
    locktime := 0
    blockHeight := 0
    blockTime := 0 }

/-- A concrete crypto environment: identity hashes, all encodings accepted,
no signature ever verifies. -/
def env0 : CryptoEnv :=
  { sha256 := fun b => b
    ripemd160 := fun b => b
    verifySignatureDERLowS := fun _ _ _ => false
    isValidPublicKeyEncoding := fun _ => true
    isValidSignatureEncoding := fun _ => true }

/-- A crypto environment whose verifier accepts exactly the pairs
(DER signature `[2]`, key `[0x13]`) and (DER signature `[1]`, key `[0x11]`). -/
def envC7 : CryptoEnv :=
  { sha256 := fun b => b
    ripemd160 := fun b => b
    verifySignatureDERLowS := fun sig key _ =>
      (sig == [2] && key == [0x13]) || (sig == [1] && key == [0x11])
    isValidPublicKeyEncoding := fun _ => true
    isValidSignatureEncoding := fun _ => true }

/-- A program with the given scripts over the zero external state. -/
def mkProgram (unlockingScript lockingScript : List Nat) :
    AuthenticationProgram :=
  { unlockingScript := unlockingScript, lockingScript := lockingScript,
    state := ext0 }

/-- A phase-style state with the given script and stack. -/
def mkState (script : List Nat) (stack : List (List Nat)) : ProgramState :=
  createBitcoinCashProgramState (mkProgram [] []) script stack

/-- A 23-byte locking script of the exact P2SH shape
(`OP_HASH160 OP_PUSHBYTES_20 <20 zero bytes> OP_EQUAL`). -/
def p2shLockingScript : List Nat :=
  [0xa9, 0x14] ++ List.replicate 20 0 ++ [0x87]

/-- The state of the last entry of a debug-step sequence, `none` for the
empty sequence. -/
def lastDebugState (steps : List DebuggingStep) : Option ProgramState :=
  steps.getLast?.map (fun d => d.state)

/-- Counting discipline of an operation: it never decreases
`operationCount`, and an error-free result keeps the count within the
201-operation consensus limit (or at the incoming count) and can only arise
from an error-free input. -/
def OpSafe (f : ProgramState → ProgramState) : Prop :=
  ∀ s : ProgramState,
    s.operationCount ≤ (f s).operationCount ∧
    ((f s).error = none →
      (f s).operationCount ≤ max s.operationCount 201 ∧ s.error = none)

/-- A terminal state carrying an error together with a one-element truthy
stack. -/
def c1ErrState : ProgramState :=
  { mkState [] [[1]] with error := some .emptyStack }

/-- An error-free terminal state with a one-element truthy stack. -/
def c1OkState : ProgramState := mkState [] [[1]]

/-- `OP_PUSHDATA1` with length byte 75 followed by exactly 75 payload
bytes. -/
def c9Script : List Nat := [0x4c, 0x4b] ++ List.replicate 75 0x11

/-- A 203-byte script of `OP_0` opcodes, long enough to drive
`operationCount` past the 201 limit. -/
def c10Script : List Nat := List.replicate 203 0x00

/-- A state sitting at the operation-count limit with one more opcode byte
available. -/
def c10Probe : ProgramState :=
  { mkState [0x00] [] with operationCount := 201, ip := -1 }

/-- The state reached after 202 VM steps on the 203-byte `OP_0` script. -/
def c10Reached : ProgramState :=
  (runWhile env0 202 (mkState c10Script [])).getD (mkState [] [])

/-- A P2SH program whose unlocking script is a single `OP_0`. -/
def progC2 : AuthenticationProgram := mkProgram [0x00] p2shLockingScript

/-- A P2SH program whose unlocking phase succeeds (pushing
`[0xAA, 0xBB]`) but records the operation byte 0xAA ≥ 0x60. -/
def progC3 : AuthenticationProgram :=
  mkProgram [0x02, 0xAA, 0xBB] p2shLockingScript

/-- The trivial program: both scripts empty (not P2SH-shaped). -/
def progC6 : AuthenticationProgram := mkProgram [] []

/-! Helper lemmas. -/

theorem before_script (s : ProgramState) : (before s).script = s.script := by
  simp only [before, applyError]
  split <;> (try split) <;> rfl

theorem before_ip (s : ProgramState) : (before s).ip = s.ip + 1 := by
  simp only [before, applyError]
  split <;> (try split) <;> rfl

theorem before_stack (s : ProgramState) : (before s).stack = s.stack := by
  simp only [before, applyError]
  split <;> (try split) <;> rfl

theorem before_error_none {s : ProgramState} (h : (before s).error = none) :
    s.error = none := by
  revert h
  simp only [before, applyError]
  split
  · split
    · intro h; cases h
    · intro h; exact h
  · intro h; exact h

theorem before_opCount_mono (s : ProgramState) :
    s.operationCount ≤ (before s).operationCount := by
  simp only [before, applyError]
  split <;> (try split) <;> simp

theorem before_opCount_bound {s : ProgramState} (h : (before s).error = none) :
    (before s).operationCount ≤ max s.operationCount 201 := by
  revert h
  simp only [before, applyError]
  split
  · split
    · intro h; cases h
    · intro h1
      have hle : ¬ (maximumOperationCount < s.operationCount + 1) := by assumption
      simp only [maximumOperationCount, not_lt] at hle
      exact le_trans hle (le_max_right _ _)
  · intro _; simp

theorem runWhile_reachable (env : CryptoEnv) :
    ∀ (n : Nat) (s₀ s base : ProgramState), Reachable env base s₀ →
      runWhile env n s₀ = some s → Reachable env base s := by
  intro n
  induction n with
  | zero =>
    intro s₀ s base hr h
    simp only [runWhile] at h
    cases h
    exact hr
  | succ m ih =>
    intro s₀ s base hr h
    simp only [runWhile] at h
    by_cases hc : continueP s₀
    · rw [if_pos hc] at h
      exact ih (vmStep env s₀) s base (.step s₀ hr hc) h
    · rw [if_neg hc] at h
      cases h

theorem debug_last_aux (env : CryptoEnv) :
    ∀ (fuel : Nat) (s : ProgramState) (entry : DebuggingStep),
      entry.state = s →
      lastDebugState (entry :: debugLoop env fuel s) = some (evalLoop env fuel s) := by
  intro fuel
  induction fuel with
  | zero =>
    intro s entry h
    simp [lastDebugState, debugLoop, evalLoop, h]
  | succ n ih =>
    intro s entry h
    by_cases hc : continueP s
    · simp only [debugLoop, evalLoop, hc, if_true]
      have := ih (vmStep env s) ⟨"", "", vmStep env s⟩ rfl
      simpa [lastDebugState, List.getLast?_cons_cons] using this
    · simp [lastDebugState, debugLoop, evalLoop, hc, h]

theorem lastDebugState_vmDebug (env : CryptoEnv) (s : ProgramState)
    (label : String) : lastDebugState (vmDebug env s label) = some (vmEvaluate env s) :=
  debug_last_aux env (s.script.length + 1) s ⟨label, label, s⟩ rfl

theorem vmDebug_ne_nil (env : CryptoEnv) (s : ProgramState) (label : String) :
    vmDebug env s label ≠ [] := by
  simp [vmDebug]

theorem lastDebugState_append {l₁ l₂ : List DebuggingStep} (h : l₂ ≠ []) :
    lastDebugState (l₁ ++ l₂) = lastDebugState l₂ := by
  simp [lastDebugState, List.getLast?_append_of_ne_nil _ h]

theorem debugPhase_fst (env : CryptoEnv) (program : AuthenticationProgram)
    (script : List Nat) (message : String) (stack : List (List Nat)) :
    (debugPhase env program script message stack).1
      = vmDebug env (createBitcoinCashProgramState program script stack) message := rfl

theorem debugPhase_snd (env : CryptoEnv) (program : AuthenticationProgram)
    (script : List Nat) (message : String) (stack : List (List Nat)) :
    (debugPhase env program script message stack).2
      = vmEvaluate env (createBitcoinCashProgramState program script stack) := by
  have h := lastDebugState_vmDebug env
    (createBitcoinCashProgramState program script stack) message
  simp only [debugPhase, lastDebugState] at h ⊢
  cases heq : (vmDebug env (createBitcoinCashProgramState program script stack)
      message).getLast? with
  | none => rw [heq] at h; cases h
  | some d =>
    rw [heq] at h
    simp only [lastStateOf, heq]
    exact Option.some.inj h

theorem getLast?_getD_of_ne_nil {α : Type} {l : List α} (d : α) (h : l ≠ []) :
    l.getLast? = some (l.getLast?.getD d) := by
  cases heq : l.getLast? with
  | none => exact absurd (List.getLast?_eq_none_iff.mp heq) h
  | some a => rfl

theorem opSafe_of_fields {f : ProgramState → ProgramState}
    (h : ∀ s, (f s).operationCount = s.operationCount ∧
      ((f s).error = none → s.error = none)) : OpSafe f := by
  intro s
  obtain ⟨h1, h2⟩ := h s
  refine ⟨by omega, fun he => ⟨?_, h2 he⟩⟩
  rw [h1]
  exact le_max_left _ _

theorem opSafe_opPushNumber (v : Int) : OpSafe (opPushNumber v) :=
  opSafe_of_fields fun _ => ⟨rfl, fun he => he⟩

theorem opSafe_opPushDataConstant (n : Nat) : OpSafe (opPushDataConstant n) := by
  apply opSafe_of_fields
  intro s
  simp only [opPushDataConstant, applyError]
  split <;> exact ⟨rfl, by intro he; first | exact he | cases he⟩

theorem opSafe_createPushDataOperator (a b c : Nat) :
    OpSafe (createPushDataOperator a b c) := by
  apply opSafe_of_fields
  intro s
  simp only [createPushDataOperator, applyError]
  repeat' split
  all_goals exact ⟨rfl, by intro he; first | exact he | cases he⟩

theorem opSafe_opEqual : OpSafe opEqual := by
  apply opSafe_of_fields
  intro s
  simp only [opEqual, applyError, jsPop]
  repeat' split
  all_goals exact ⟨rfl, by intro he; first | exact he | cases he⟩

theorem opSafe_opHash160 (env : CryptoEnv) : OpSafe (opHash160 env) := by
  apply opSafe_of_fields
  intro s
  simp only [opHash160, applyError, jsPop]
  repeat' split
  all_goals exact ⟨rfl, by intro he; first | exact he | cases he⟩

theorem opSafe_opCheckSig (env : CryptoEnv) : OpSafe (opCheckSig env) := by
  apply opSafe_of_fields
  intro s
  simp only [opCheckSig, applyError, jsPop]
  repeat' split
  all_goals exact ⟨rfl, by intro he; first | exact he | cases he⟩

theorem opSafe_opCheckMultiSig (env : CryptoEnv) : OpSafe (opCheckMultiSig env) := by
  intro s
  simp only [opCheckMultiSig, applyError, maximumOperationCount]
  repeat' split
  all_goals refine ⟨?_, fun he => ⟨?_, ?_⟩⟩
  all_goals simp_all

set_option maxHeartbeats 1000000 in
theorem operatorTable_opSafe (env : CryptoEnv) (c : Nat)
    (f : ProgramState → ProgramState) (h : operatorTable env c = some f) :
    OpSafe f := by
  unfold operatorTable at h
  split_ifs at h
  · cases h; exact opSafe_opPushNumber 0
  · cases h; exact opSafe_opPushDataConstant c
  · cases h; exact opSafe_createPushDataOperator 1 75 520
  · cases h; exact opSafe_createPushDataOperator 2 256 520
  · cases h; exact opSafe_createPushDataOperator 4 65536 520
  · cases h; exact opSafe_opPushNumber (-1)
  · cases h; exact opSafe_opPushNumber _
  · cases h; exact opSafe_opEqual
  · cases h; exact opSafe_opHash160 env
  · cases h; exact opSafe_opCheckSig env
  · cases h; exact opSafe_opCheckMultiSig env

theorem vmStep_opCount_mono (env : CryptoEnv) (s : ProgramState) :
    s.operationCount ≤ (vmStep env s).operationCount := by
  simp only [vmStep]
  split
  · split
    · rename_i hf
      exact le_trans (before_opCount_mono s)
        ((operatorTable_opSafe env _ _ hf (before s)).1)
    · exact before_opCount_mono s
  · exact before_opCount_mono s

theorem vmStep_error_inv (env : CryptoEnv) (s : ProgramState)
    (h : (vmStep env s).error = none) : s.error = none := by
  revert h
  simp only [vmStep]
  split
  · split
    · rename_i hf
      intro h
      exact before_error_none
        (((operatorTable_opSafe env _ _ hf (before s)).2 h).2)
    · intro h
      cases h
  · intro h
    cases h

theorem vmStep_opCount_inv (env : CryptoEnv) (s : ProgramState)
    (h0 : s.operationCount ≤ 201) (h : (vmStep env s).error = none) :
    (vmStep env s).operationCount ≤ 201 := by
  revert h
  simp only [vmStep]
  split
  · split
    · rename_i hf
      intro h
      obtain ⟨hb, he⟩ := (operatorTable_opSafe env _ _ hf (before s)).2 h
      have hb2 := before_opCount_bound he
      omega
    · intro h
      cases h
  · intro h
    cases h

theorem reachable_opCount_inv (env : CryptoEnv) (s₀ s : ProgramState)
    (h0 : s₀.operationCount ≤ 201) (hr : Reachable env s₀ s)
    (he : s.error = none) : s.operationCount ≤ 201 := by
  induction hr with
  | refl => exact h0
  | step t _ hc ih =>
    have ht : t.error = none := vmStep_error_inv env t he
    exact vmStep_opCount_inv env t (ih ht) he

theorem before_overflow (s : ProgramState) (c : Nat)
    (h0 : 201 ≤ s.operationCount)
    (hb : getByte s.script (s.ip + 1) = some c) :
    (before s).error = some .exceededMaximumOperationCount := by
  simp only [before, applyError]
  split
  · split
    · rfl
    · rename_i hle
      exfalso
      apply hle
      show maximumOperationCount < s.operationCount + 1
      simp only [maximumOperationCount]
      omega
  · rename_i heq
    rw [hb] at heq
    cases heq

theorem evaluateP2sh_cons {T : Type} (stack : List (List Nat))
    (f : List Nat → List (List Nat) → T) (h : stack ≠ []) :
    evaluateP2sh stack f = some (f (stack.getLast?.getD []) stack.dropLast) := by
  simp only [evaluateP2sh, jsPop]
  rw [getLast?_getD_of_ne_nil [] h]
  rfl

theorem operatorTable_pushConstant (env : CryptoEnv) {N : Nat} (h1 : 1 ≤ N)
    (h75 : N ≤ 75) : operatorTable env N = some (opPushDataConstant N) := by
  unfold operatorTable
  rw [if_neg (by omega), if_pos (by omega)]

/-! Claim theorems. -/

/-- C1: the source's `validateBitcoinCashAuthenticationProgramState` tests
`state.error !== undefined`, so it accepts a terminal state that carries an
error (with a one-element truthy stack) and rejects the error-free one the
claim calls valid — the exact opposite of the claimed predicate, evaluated
here on both states. -/
theorem C1_code_eval :
    validateBitcoinCashAuthenticationProgramState c1ErrState = true ∧
    validProgramStateSpec c1ErrState = false ∧
    validateBitcoinCashAuthenticationProgramState c1OkState = false ∧
    validProgramStateSpec c1OkState = true := by decide

/-- C8: with key count `n = 0` (and `m = 0`), `opCheckMultiSig` does not
remove zero public-key elements: the JavaScript `stack.splice(-0)` removes
the *entire* remaining stack (here including the element `[0x07]` lying
below the protocol-bug dummy), after which popping the signature count fails
with `emptyStack`. -/
theorem C8_code_eval :
    parseBytesAsScriptNumber [] = some 0 ∧
    opCheckMultiSig env0 (mkState [] [[7], [], [], []])
      = applyError .emptyStack { mkState [] [[7], [], [], []] with stack := [] } := by
  decide

/-- C9: dispatching `OP_PUSHDATA1` (0x4c) on a length byte of exactly 75
with 75 payload bytes available succeeds and pushes the payload — the source
only rejects lengths strictly below 75 (`length < minimum` with
`minimum = 75`), while the claim (and the push-minimality rule) require
`nonMinimalPush` for every length up to 75. -/
theorem C9_code_eval :
    getByte c9Script 0 = some 0x4c ∧ getByte c9Script 1 = some 75 ∧
    (vmStep env0 (mkState c9Script [])).error = none ∧
    (vmStep env0 (mkState c9Script [])).stack = [List.replicate 75 0x11] := by
  decide

/-- C4 counterexample: `createBitcoinCashProgramState` initializes the
instruction pointer to 0, not −1. -/
theorem C4_counterexample :
    (createBitcoinCashProgramState (mkProgram [] []) [0x00] []).ip ≠ -1 := by
  decide

/-- C5 counterexample: for a state whose opcode at `ip` is
`OP_PUSHBYTES_1` (script `[0x01, 0xAA, 0x51]`, `ip = 0`), the step pushes
the byte after the opcode (`[0xAA]`, as the claim says) but leaves
`ip = 2` — one past the last consumed byte — not at the claimed
`ip + N = 1`. -/
theorem C5_counterexample :
    getByte [0x01, 0xAA, 0x51] 0 = some 0x01 ∧
    (vmStep env0 (mkState [0x01, 0xAA, 0x51] [])).stack = [[0xAA]] ∧
    (vmStep env0 (mkState [0x01, 0xAA, 0x51] [])).ip ≠ 1 := by decide

/-- C6 counterexample: for the program with an empty unlocking script and a
P2SH-shaped locking script, the locking phase errors (`OP_HASH160` on an
empty stack); the debug pipeline stops there, while the evaluate pipeline
still enters the P2SH branch and crashes popping the empty unlocking stack
(`none`), so the two pipelines disagree. -/
theorem C6_counterexample :
    evaluateBitcoinCashAuthenticationProgram env0 (mkProgram [] p2shLockingScript)
      ≠ lastDebugState
          (debugBitcoinCashAuthenticationProgram env0 (mkProgram [] p2shLockingScript)) := by
  decide

/-- C3 counterexample: a program with a P2SH-shaped locking script whose
unlocking phase succeeds but records the operation byte 0xAA ≥ 0x60: the
evaluate pipeline does not fail with `p2shPushOnly` (it evaluates the redeem
script and ends with `unknownOpcode`), and the state of the debug pipeline's
last entry carries no error at all. -/
theorem C3_counterexample :
    isPayToScriptHash p2shLockingScript = true ∧
    (vmEvaluate env0 (createBitcoinCashProgramState
        (mkProgram [0x02, 0xAA, 0xBB] p2shLockingScript) [0x02, 0xAA, 0xBB] [])).error
      = none ∧
    isPushOnly (vmEvaluate env0 (createBitcoinCashProgramState
        (mkProgram [0x02, 0xAA, 0xBB] p2shLockingScript) [0x02, 0xAA, 0xBB] [])).operations
      = false ∧
    (evaluateBitcoinCashAuthenticationProgram env0
        (mkProgram [0x02, 0xAA, 0xBB] p2shLockingScript)).map (fun s => s.error)
      = some (some .unknownOpcode) ∧
    (lastDebugState (debugBitcoinCashAuthenticationProgram env0
        (mkProgram [0x02, 0xAA, 0xBB] p2shLockingScript))).map (fun s => s.error)
      = some none := by decide

/-- C7 counterexample: a signature-checking walk over three keys and two
required signatures in which the topmost signature matches the topmost key
and the next key mismatches: the loop stops with one signature remaining
(not all have matched) and one key remaining (not fewer than the remaining
signatures), contradicting the claimed exact termination condition. -/
theorem C7_counterexample :
    (msLoop envC7 ext0 [] [[0x11], [0x12], [0x13]] [[1, 0x41], [2, 0x41]] 2 0 2 3).toOption
      = some (1, 1, 1) ∧ (1 : Nat) ≠ 0 ∧ ((1 : Nat) : Int) ≠ 2 ∧ ¬((1 : Nat) < 1) := by
  decide

set_option maxRecDepth 20000 in
theorem c10_runs :
    (runWhile env0 202 (mkState c10Script [])).map (fun s => s.operationCount)
      = some 202 := by decide

/-- C10 counterexample: running 202 steps of the 203-byte `OP_0` script from
a freshly created state (operation count 0) reaches the state `c10Reached`,
whose `operationCount` is 202 > 201 (its `error` is set to
`exceededMaximumOperationCount`, but the claimed bound on every reachable
state fails). -/
theorem C10_counterexample :
    Reachable env0 (mkState c10Script []) c10Reached ∧
      201 < c10Reached.operationCount := by
  have hmap := c10_runs
  cases h : runWhile env0 202 (mkState c10Script []) with
  | none => rw [h] at hmap; cases hmap
  | some s =>
    rw [h] at hmap
    have hs : s.operationCount = 202 := Option.some.inj hmap
    have hcd : c10Reached = s := by simp [c10Reached, h]
    rw [hcd]
    exact ⟨runWhile_reachable env0 202 _ s _ .refl h, by omega⟩

/-- C4 amended: `createBitcoinCashProgramState` initializes `ip` to 0 (not
−1); the VM dispatches the operator of the opcode at index 0 and applies it
to the state returned by `before`, which advances `ip` from 0 to 1 — so the
opcode at index 0 is still the first one read and executed. -/
theorem C4_amended (program : AuthenticationProgram) (script : List Nat)
    (stack : List (List Nat)) (env : CryptoEnv) (c : Nat)
    (f : ProgramState → ProgramState)
    (hc : getByte script 0 = some c) (hf : operatorTable env c = some f) :
    (createBitcoinCashProgramState program script stack).ip = 0 ∧
    (before (createBitcoinCashProgramState program script stack)).ip = 0 + 1 ∧
    vmStep env (createBitcoinCashProgramState program script stack)
      = f (before (createBitcoinCashProgramState program script stack)) := by
  refine ⟨rfl, ?_, ?_⟩
  · rw [before_ip]; rfl
  · simp only [vmStep, createBitcoinCashProgramState] at hc ⊢
    simp only [hc, hf]

/-- C4 witness: the amended statement at the one-opcode script `[OP_0]`. -/
theorem C4_witness :
    (createBitcoinCashProgramState (mkProgram [] []) [0x00] []).ip = 0 ∧
    (before (createBitcoinCashProgramState (mkProgram [] []) [0x00] [])).ip = 0 + 1 ∧
    vmStep env0 (createBitcoinCashProgramState (mkProgram [] []) [0x00] [])
      = opPushNumber 0 (before (createBitcoinCashProgramState (mkProgram [] []) [0x00] [])) :=
  C4_amended (mkProgram [] []) [0x00] [] env0 0 (opPushNumber 0) (by decide) rfl

/-- C5 amended: when the opcode at the dispatch-time `ip` is
`OP_PUSHBYTES_N`, the step pushes exactly the `N` bytes at positions
`ip + 1` through `ip + N` as one new stack element, leaving the rest of the
stack unchanged, but it advances `ip` to `ip + N + 1` — one past the last
consumed byte — because the operation, running after `before`, treats its
incoming `ip` as the first payload position and sets `ip := pushEnd`; if
fewer than `N` bytes follow the opcode, it returns the `before` state with
`error = malformedPush`. -/
theorem C5_amended (env : CryptoEnv) (s : ProgramState) (N : Nat)
    (h1 : 1 ≤ N) (h75 : N ≤ 75)
    (hop : getByte s.script s.ip = some N) :
    (s.ip + 1 + (N : Int) ≤ (s.script.length : Int) →
      vmStep env s = { before s with
        stack := s.stack ++ [jsSlice s.script (s.ip + 1) (s.ip + 1 + (N : Int))]
        ip := s.ip + 1 + (N : Int) }) ∧
    ((s.script.length : Int) < s.ip + 1 + (N : Int) →
      vmStep env s = applyError .malformedPush (before s)) := by
  have htab := operatorTable_pushConstant env h1 h75
  constructor
  · intro hlen
    simp only [vmStep, hop, htab, opPushDataConstant]
    simp only [before_script, before_ip, before_stack]
    rw [if_neg (not_lt.mpr hlen)]
  · intro hlen
    simp only [vmStep, hop, htab, opPushDataConstant]
    simp only [before_script, before_ip, before_stack]
    rw [if_pos hlen]

/-- C5 witness: the amended statement on `OP_PUSHBYTES_1` in the script
`[0x01, 0xAA, 0x51]` at `ip = 0`: the step pushes `[0xAA]` and sets
`ip = 2`. -/
theorem C5_witness :
    vmStep env0 (mkState [0x01, 0xAA, 0x51] [])
      = { before (mkState [0x01, 0xAA, 0x51] []) with
          stack := (mkState [0x01, 0xAA, 0x51] []).stack ++
            [jsSlice (mkState [0x01, 0xAA, 0x51] []).script
              ((mkState [0x01, 0xAA, 0x51] []).ip + 1)
              ((mkState [0x01, 0xAA, 0x51] []).ip + 1 + (1 : Int))]
          ip := (mkState [0x01, 0xAA, 0x51] []).ip + 1 + (1 : Int) } :=
  (C5_amended env0 (mkState [0x01, 0xAA, 0x51] []) 1 (by decide) (by decide)
    (by decide)).1 (by decide)

/-- C10 amended: every reachable *error-free* state satisfies
`operationCount ≤ 201` (an errored state may retain the over-limit count, as
the counterexample shows); `operationCount` never decreases across a VM
step; and whenever a state at or above the 201 limit still has an opcode
byte for `before` to count, `before` yields
`error = exceededMaximumOperationCount` (the guard inside OP_CHECKMULTISIG
is covered by the reachable-state bound). -/
theorem C10_amended (env : CryptoEnv) (s₀ s t : ProgramState) (c : Nat)
    (h0 : s₀.operationCount ≤ 201) (hr : Reachable env s₀ s) :
    (s.error = none → s.operationCount ≤ 201) ∧
    t.operationCount ≤ (vmStep env t).operationCount ∧
    (201 ≤ t.operationCount → getByte t.script (t.ip + 1) = some c →
      (before t).error = some .exceededMaximumOperationCount) :=
  ⟨fun he => reachable_opCount_inv env s₀ s h0 hr he,
   vmStep_opCount_mono env t,
   fun hc hb => before_overflow t c hc hb⟩

/-- C10 witness: the amended statement at a freshly created empty-script
state and at a probe state sitting at the 201 limit with opcode byte 0x00
ahead. -/
theorem C10_witness :
    ((mkState [] []).error = none → (mkState [] []).operationCount ≤ 201) ∧
    c10Probe.operationCount ≤ (vmStep env0 c10Probe).operationCount ∧
    (201 ≤ c10Probe.operationCount →
      getByte c10Probe.script (c10Probe.ip + 1) = some 0 →
      (before c10Probe).error = some .exceededMaximumOperationCount) :=
  C10_amended env0 (mkState [] []) (mkState [] []) c10Probe 0 (by decide) .refl

/-- C2: for every program whose locking script has the P2SH shape and whose
unlocking phase succeeds with a non-empty terminal stack, the locking
phase's initial state carries the unlocking phase's terminal stack by value,
and the evaluate pipeline returns the evaluation of the topmost unlocking
stack element as the P2SH script with the remaining elements (taken from the
unlocking result, untouched by the locking phase's evaluation) as its
initial stack. -/
theorem C2_p2sh_stack_handoff (env : CryptoEnv) (program : AuthenticationProgram)
    (hshape : isPayToScriptHash program.lockingScript = true)
    (herr : (vmEvaluate env (createBitcoinCashProgramState program
      program.unlockingScript [])).error = none)
    (hne : (vmEvaluate env (createBitcoinCashProgramState program
      program.unlockingScript [])).stack ≠ []) :
    (createBitcoinCashProgramState program program.lockingScript
        (vmEvaluate env (createBitcoinCashProgramState program
          program.unlockingScript [])).stack).stack
      = (vmEvaluate env (createBitcoinCashProgramState program
          program.unlockingScript [])).stack ∧
    evaluateBitcoinCashAuthenticationProgram env program
      = some (vmEvaluate env (createBitcoinCashProgramState program
          ((vmEvaluate env (createBitcoinCashProgramState program
            program.unlockingScript [])).stack.getLast?.getD [])
          ((vmEvaluate env (createBitcoinCashProgramState program
            program.unlockingScript [])).stack.dropLast))) := by
  refine ⟨rfl, ?_⟩
  simp only [evaluateBitcoinCashAuthenticationProgram]
  rw [if_neg (by simp [herr]), if_pos hshape]
  simp only [evaluateP2sh, jsPop]
  rw [getLast?_getD_of_ne_nil [] hne]
  rfl

/-- C2 witness: the hand-off at the program with unlocking script `[OP_0]`
and the P2SH-shaped locking script. -/
theorem C2_witness :
    (createBitcoinCashProgramState progC2 progC2.lockingScript
        (vmEvaluate env0 (createBitcoinCashProgramState progC2
          progC2.unlockingScript [])).stack).stack
      = (vmEvaluate env0 (createBitcoinCashProgramState progC2
          progC2.unlockingScript [])).stack ∧
    evaluateBitcoinCashAuthenticationProgram env0 progC2
      = some (vmEvaluate env0 (createBitcoinCashProgramState progC2
          ((vmEvaluate env0 (createBitcoinCashProgramState progC2
            progC2.unlockingScript [])).stack.getLast?.getD [])
          ((vmEvaluate env0 (createBitcoinCashProgramState progC2
            progC2.unlockingScript [])).stack.dropLast))) :=
  C2_p2sh_stack_handoff env0 progC2 (by decide) (by decide) (by decide)

/-- C3 amended: for a program with P2SH-shaped locking script whose
unlocking and locking phases end without error but whose recorded unlocking
operations contain a value ≥ 0x60, the debug pipeline appends an annotation
pseudo-step (the P2SH-error asm and push-only description) carrying the
locking result as its state — it sets no `p2shPushOnly` error, the last
entry's state being error-free — while the evaluate pipeline performs no
push-only check at all and proceeds directly to the P2SH evaluation. -/
theorem C3_amended (env : CryptoEnv) (program : AuthenticationProgram)
    (hshape : isPayToScriptHash program.lockingScript = true)
    (hu : (vmEvaluate env (createBitcoinCashProgramState program
      program.unlockingScript [])).error = none)
    (hl : (vmEvaluate env (createBitcoinCashProgramState program
      program.lockingScript (vmEvaluate env (createBitcoinCashProgramState
        program program.unlockingScript [])).stack)).error = none)
    (hp : isPushOnly (vmEvaluate env (createBitcoinCashProgramState program
      program.unlockingScript [])).operations = false) :
    debugBitcoinCashAuthenticationProgram env program
      = (debugPhase env program program.unlockingScript phaseUnlocking []).1 ++
        (debugPhase env program program.lockingScript phaseLocking
          (vmEvaluate env (createBitcoinCashProgramState program
            program.unlockingScript [])).stack).1 ++
        [⟨p2shErrorAsm, p2shErrorPushOnly,
          vmEvaluate env (createBitcoinCashProgramState program
            program.lockingScript (vmEvaluate env
              (createBitcoinCashProgramState program
                program.unlockingScript [])).stack)⟩] ∧
    (lastDebugState (debugBitcoinCashAuthenticationProgram env program)).map
        (fun st => st.error) = some none ∧
    evaluateBitcoinCashAuthenticationProgram env program
      = evaluateP2sh (vmEvaluate env (createBitcoinCashProgramState program
          program.unlockingScript [])).stack
          (fun scr stk =>
            vmEvaluate env (createBitcoinCashProgramState program scr stk)) := by
  have h1 : debugBitcoinCashAuthenticationProgram env program
      = (debugPhase env program program.unlockingScript phaseUnlocking []).1 ++
        (debugPhase env program program.lockingScript phaseLocking
          (vmEvaluate env (createBitcoinCashProgramState program
            program.unlockingScript [])).stack).1 ++
        [⟨p2shErrorAsm, p2shErrorPushOnly,
          vmEvaluate env (createBitcoinCashProgramState program
            program.lockingScript (vmEvaluate env
              (createBitcoinCashProgramState program
                program.unlockingScript [])).stack)⟩] := by
    simp only [debugBitcoinCashAuthenticationProgram, debugPhase_snd]
    rw [if_neg (by simp [hu])]
    rw [if_neg (by simp [hl, hshape])]
    rw [if_pos (by simp [hp])]
  refine ⟨h1, ?_, ?_⟩
  · rw [h1]
    rw [lastDebugState_append (by simp)]
    simp [lastDebugState, hl]
  · simp only [evaluateBitcoinCashAuthenticationProgram]
    rw [if_neg (by simp [hu]), if_pos hshape]

/-- C3 witness: the amended statement at the program with unlocking script
`[0x02, 0xAA, 0xBB]` and the P2SH-shaped locking script. -/
theorem C3_witness :
    debugBitcoinCashAuthenticationProgram env0 progC3
      = (debugPhase env0 progC3 progC3.unlockingScript phaseUnlocking []).1 ++
        (debugPhase env0 progC3 progC3.lockingScript phaseLocking
          (vmEvaluate env0 (createBitcoinCashProgramState progC3
            progC3.unlockingScript [])).stack).1 ++
        [⟨p2shErrorAsm, p2shErrorPushOnly,
          vmEvaluate env0 (createBitcoinCashProgramState progC3
            progC3.lockingScript (vmEvaluate env0
              (createBitcoinCashProgramState progC3
                progC3.unlockingScript [])).stack)⟩] ∧
    (lastDebugState (debugBitcoinCashAuthenticationProgram env0 progC3)).map
        (fun st => st.error) = some none ∧
    evaluateBitcoinCashAuthenticationProgram env0 progC3
      = evaluateP2sh (vmEvaluate env0 (createBitcoinCashProgramState progC3
          progC3.unlockingScript [])).stack
          (fun scr stk =>
            vmEvaluate env0 (createBitcoinCashProgramState progC3 scr stk)) :=
  C3_amended env0 progC3 (by decide) (by decide) (by decide) (by decide)

/-- C6 amended: the terminal state of the evaluate pipeline equals the state
of the last debug entry for every program that does not take a degenerate
P2SH path — that is, whenever (if the locking script is P2SH-shaped and the
unlocking phase succeeds) the locking phase is error-free, the recorded
unlocking operations are push-only, and the unlocking terminal stack is
non-empty.  On the degenerate paths the pipelines diverge, as the
counterexample shows. -/
theorem C6_amended (env : CryptoEnv) (program : AuthenticationProgram)
    (h : isPayToScriptHash program.lockingScript = true →
      (vmEvaluate env (createBitcoinCashProgramState program
        program.unlockingScript [])).error = none →
      ((vmEvaluate env (createBitcoinCashProgramState program
          program.lockingScript (vmEvaluate env
            (createBitcoinCashProgramState program
              program.unlockingScript [])).stack)).error = none ∧
        isPushOnly (vmEvaluate env (createBitcoinCashProgramState program
          program.unlockingScript [])).operations = true ∧
        (vmEvaluate env (createBitcoinCashProgramState program
          program.unlockingScript [])).stack ≠ [])) :
    evaluateBitcoinCashAuthenticationProgram env program
      = lastDebugState (debugBitcoinCashAuthenticationProgram env program) := by
  by_cases hu : (vmEvaluate env (createBitcoinCashProgramState program
      program.unlockingScript [])).error = none
  · by_cases hsh : isPayToScriptHash program.lockingScript = true
    · obtain ⟨hl, hp, hs⟩ := h hsh hu
      simp only [evaluateBitcoinCashAuthenticationProgram,
        debugBitcoinCashAuthenticationProgram, debugPhase_snd]
      rw [if_neg (by simp [hu])]
      rw [if_pos hsh]
      rw [if_neg (by simp [hu])]
      rw [if_neg (by simp [hl, hsh])]
      rw [if_neg (by simp [hp])]
      rw [if_neg (by simp [List.length_eq_zero, hs])]
      simp only [evaluateP2sh_cons _ _ hs]
      rw [lastDebugState_append (by rw [debugPhase_fst]; exact vmDebug_ne_nil _ _ _)]
      rw [debugPhase_fst, lastDebugState_vmDebug]
    · simp only [evaluateBitcoinCashAuthenticationProgram,
        debugBitcoinCashAuthenticationProgram, debugPhase_snd]
      rw [if_neg (by simp [hu])]
      rw [if_neg hsh]
      rw [if_neg (by simp [hu])]
      rw [if_pos (by simp [hsh])]
      rw [lastDebugState_append (by rw [debugPhase_fst]; exact vmDebug_ne_nil _ _ _)]
      rw [debugPhase_fst, lastDebugState_vmDebug]
  · simp only [evaluateBitcoinCashAuthenticationProgram,
      debugBitcoinCashAuthenticationProgram, debugPhase_snd]
    rw [if_pos hu]
    rw [if_pos hu]
    rw [debugPhase_fst, lastDebugState_vmDebug]

/-- C6 witness: debug/evaluate agreement at the trivial program with two
empty scripts. -/
theorem C6_witness :
    evaluateBitcoinCashAuthenticationProgram env0 progC6
      = lastDebugState (debugBitcoinCashAuthenticationProgram env0 progC6) :=
  C6_amended env0 progC6 (by decide)

theorem msLoop_exit (env : CryptoEnv) (ext : ExternalState)
    (scriptCode : List Nat) (publicKeys signatures : List (List Nat))
    (required : Int) :
    ∀ (remKeys approving remSigs a r k : Nat),
      msLoop env ext scriptCode publicKeys signatures required
        approving remSigs remKeys = .ok (a, r, k) →
      r = 0 ∨ (a : Int) = required ∨ k < a + r := by
  intro remKeys
  induction remKeys with
  | zero =>
    intro approving remSigs a r k h
    simp only [msLoop] at h
    cases h
    omega
  | succ rk ih =>
    intro approving remSigs a r k h
    simp only [msLoop] at h
    split at h
    · split at h
      · cases h
      · split at h
        · cases h
        · split at h
          · exact ih _ _ _ _ _ h
          · exact ih _ _ _ _ _ h
    · rename_i hg
      cases h
      omega

/-- C7 amended: in the signature-checking walk, signatures and keys are
indeed checked from the end of each list (each iteration compares
`signatures[remSigs - 1]` against `publicKeys[remKeys - 1]`, a match
consuming both counters, a mismatch only the key counter) — the one-step
unfolding below — but the loop terminates exactly when all required
signatures have matched *or the remaining keys are fewer than the matched
count plus the remaining signatures* (equivalently, fewer than the required
total `m`), which is strictly earlier than the claimed
`remaining keys < remaining signatures`. -/
theorem C7_amended (env : CryptoEnv) (ext : ExternalState)
    (scriptCode : List Nat) (publicKeys signatures : List (List Nat))
    (required : Int) (approving remSigs remKeys a r k : Nat)
    (hres : msLoop env ext scriptCode publicKeys signatures required
      approving remSigs remKeys = .ok (a, r, k)) :
    (r = 0 ∨ (a : Int) = required ∨ k < a + r) ∧
    (0 < remSigs → approving + remSigs ≤ remKeys → (approving : Int) ≠ required →
      env.isValidPublicKeyEncoding (publicKeys.getD (remKeys - 1) []) = true →
      env.isValidSignatureEncoding (signatures.getD (remSigs - 1) []) = true →
      ∀ signed : Bool,
        signed = env.verifySignatureDERLowS
          (decodeBitcoinSignature (signatures.getD (remSigs - 1) [])).1
          (publicKeys.getD (remKeys - 1) [])
          (env.sha256 (env.sha256 (generateBitcoinCashSigningSerialization ext
            scriptCode (decodeBitcoinSignature
              (signatures.getD (remSigs - 1) [])).2))) →
        msLoop env ext scriptCode publicKeys signatures required
            approving remSigs remKeys
          = if signed then
              msLoop env ext scriptCode publicKeys signatures required
                (approving + 1) (remSigs - 1) (remKeys - 1)
            else
              msLoop env ext scriptCode publicKeys signatures required
                approving remSigs (remKeys - 1)) := by
  constructor
  · exact msLoop_exit env ext scriptCode publicKeys signatures required
      remKeys approving remSigs a r k hres
  · intro h1 h2 h3 hpk hsig signed hsigned
    cases remKeys with
    | zero => omega
    | succ rk =>
      simp only [Nat.add_sub_cancel] at hsigned hpk hsig ⊢
      simp only [msLoop]
      rw [if_pos ⟨h1, h2, h3⟩]
      rw [if_neg (not_not_intro hpk)]
      rw [if_neg (not_not_intro hsig)]
      rw [← hsigned]

/-- C7 witness: the amended statement at the walk over empty key and
signature lists with no required signatures. -/
theorem C7_witness :
    ((0 : Nat) = 0 ∨ ((0 : Nat) : Int) = 0 ∨ (0 : Nat) < 0 + 0) ∧
    (0 < 0 → 0 + 0 ≤ 0 → ((0 : Nat) : Int) ≠ 0 →
      env0.isValidPublicKeyEncoding
        (([] : List (List Nat)).getD (0 - 1) []) = true →
      env0.isValidSignatureEncoding
        (([] : List (List Nat)).getD (0 - 1) []) = true →
      ∀ signed : Bool,
        signed = env0.verifySignatureDERLowS
          (decodeBitcoinSignature (([] : List (List Nat)).getD (0 - 1) [])).1
          (([] : List (List Nat)).getD (0 - 1) [])
          (env0.sha256 (env0.sha256 (generateBitcoinCashSigningSerialization
            ext0 [] (decodeBitcoinSignature
              (([] : List (List Nat)).getD (0 - 1) [])).2))) →
        msLoop env0 ext0 [] [] [] 0 0 0 0
          = if signed then msLoop env0 ext0 [] [] [] 0 (0 + 1) (0 - 1) (0 - 1)
            else msLoop env0 ext0 [] [] [] 0 0 0 (0 - 1)) :=
  C7_amended env0 ext0 [] [] [] 0 0 0 0 0 0 0 rfl

end BitcoinTs
